import Mathlib

/-!
Verification of the Ivy bus agent runtime (`src/ivy/ivy.py`) against its
natural-language specification.  Python strings are modelled as `List Char`,
module-level constants as plain definitions, mutable objects as explicit
state records, and raised exceptions as `Except` errors.
-/

namespace Ivy

/-- Alias used for Python strings, modelled as lists of characters. -/
abbrev Str := List Char

/-- Protocol version constant (`PROTOCOL_VERSION = 3` in ivy.py). -/
def PROTOCOL_VERSION : Nat := 3

/-- Message type tag `BYE = 0`. -/
def BYE : Nat := 0

/-- Message type tag `ADD_REGEXP = 1`. -/
def ADD_REGEXP : Nat := 1

/-- Message type tag `MSG = 2`. -/
def MSG : Nat := 2

/-- Message type tag `ERROR = 3`. -/
def ERROR : Nat := 3

/-- Message type tag `DEL_REGEXP = 4`. -/
def DEL_REGEXP : Nat := 4

/-- Message type tag `END_INIT = 5`. -/
def END_INIT : Nat := 5

/-- Message type tag `START_INIT = 6`. -/
def START_INIT : Nat := 6

/-- Message type tag `DIRECT_MSG = 7`. -/
def DIRECT_MSG : Nat := 7

/-- Message type tag `DIE = 8`. -/
def DIE : Nat := 8

/-- Message type tag `PING = 9`. -/
def PING : Nat := 9

/-- Message type tag `PONG = 10`. -/
def PONG : Nat := 10

/-- Separator `ARG_START = '\002'` (STX), placed between header and payload. -/
def ARG_START : Char := '\x02'

/-- Separator `ARG_END = '\003'` (ETX), placed between/after parameters. -/
def ARG_END : Char := '\x03'

/-- Character of a decimal digit, as produced by Python `str()` on an int. -/
def digitToChar (d : Nat) : Char := Char.ofNat (d + 48)

/-- Value of a decimal digit character, `none` on a non-digit. -/
def charToDigit? (c : Char) : Option Nat :=
  if 48 ≤ c.toNat ∧ c.toNat ≤ 57 then some (c.toNat - 48) else none

/-- Decimal rendering of a natural number (fuel-based; `natToStr` supplies
enough fuel).  Models Python `"%s" % n` for a non-negative int. -/
def natChars : Nat → Nat → Str
  | 0, _ => []
  | fuel + 1, n =>
    if n < 10 then [digitToChar n]
    else natChars fuel (n / 10) ++ [digitToChar (n % 10)]

/-- Decimal rendering of a natural number, e.g. `natToStr 70 = "70"`. -/
def natToStr (n : Nat) : Str := natChars (n + 1) n

/-- Reads decimal digits left to right, accumulating; `none` on a non-digit. -/
def readNat : Str → Nat → Option Nat
  | [], acc => some acc
  | c :: cs, acc =>
    match charToDigit? c with
    | none => none
    | some d => readNat cs (acc * 10 + d)

/-- Models Python `int()` on the all-digit strings the codec produces
(`none` models the `ValueError` raised on anything else; the sign and
whitespace tolerance of `int()` never arises on encoded frames). -/
def strToNat? : Str → Option Nat
  | [] => none
  | c :: cs => readNat (c :: cs) 0

/-- Models Python `s.split(sep, 1)` followed by unpacking into two names:
the parts before and after the first occurrence of `sep`, or `none` when
`sep` is absent (the unpacking then raises `ValueError`). -/
def splitFirst (sep : Char) : Str → Option (Str × Str)
  | [] => none
  | c :: cs =>
    if c = sep then some ([], cs)
    else
      match splitFirst sep cs with
      | none => none
      | some (a, b) => some (c :: a, b)

/-- Translation of `decode_MSG_params` (ivy.py:315): parameters of a MSG
frame are ETX-separated; a present trailing ETX is removed before the
split, a missing one is tolerated (only logged in the source). -/
def decode_MSG_params (params : Str) : List Str :=
  if ARG_END ∈ params then
    let params' := if params.getLast? = some ARG_END then params.dropLast else params
    params'.splitOn ARG_END
  else if 0 < params.length then [params]
  else []

/-- Translation of `decode_msg` (ivy.py:346): split at the first space,
then at the first STX, parse the two integers, and decode the payload;
`none` models the `IvyMalformedMessage` exception. -/
def decode_msg (message : Str) : Option (Nat × Nat × List Str) :=
  match splitFirst ' ' message with
  | none => none
  | some (msg_id_s, rest) =>
    match splitFirst ARG_START rest with
    | none => none
    | some (num_id_s, payload) =>
      match strToNat? msg_id_s, strToNat? num_id_s with
      | some msg_id, some num_id =>
        if msg_id = MSG then
          some (msg_id, num_id, decode_MSG_params payload)
        else
          let payload' :=
            if payload.getLast? = some ARG_END then payload.dropLast else payload
          some (msg_id, num_id, payload'.splitOn ARG_END)
      | _, _ => none

/-- Parameter argument of `encode_message`: a Python `str` is inserted
verbatim, a list is joined with ETX (plus a trailing ETX when non-empty). -/
inductive EncParams where
  | str : Str → EncParams
  | list : List Str → EncParams
deriving DecidableEq

/-- Translation of `encode_message` (ivy.py:378): produces the frame
`"<type> <num_id><STX><payload>\n"`. -/
def encode_message (msg_type : Nat) (numerical_id : Nat) (params : EncParams) : Str :=
  natToStr msg_type ++ [' '] ++ natToStr numerical_id ++ [ARG_START] ++
    (match params with
     | .str s => s
     | .list ps =>
       if ps.length ≠ 0 then List.intercalate [ARG_END] ps ++ [ARG_END] else []) ++
    ['\n']

/-- Client status constant `NOT_INITIALIZED = 0`. -/
def NOT_INITIALIZED : Nat := 0

/-- Client status constant `INITIALIZATION_IN_PROGRESS = 1`. -/
def INITIALIZATION_IN_PROGRESS : Nat := 1

/-- Client status constant `INITIALIZED = 2`. -/
def INITIALIZED : Nat := 2

/-- Exceptions raised by the modelled methods.  `valueError` and `keyError`
are the Python builtins; `ivyIllegalStateError` is `IvyIllegalStateError`. -/
inductive PyError where
  | valueError
  | keyError
  | ivyIllegalStateError
deriving DecidableEq

/-- Mutable state of one `IvyClient` (ivy.py:427).  The socket is modelled
by `sent`, the list of frames successfully handed to `socket.send` in
order; the FIFO ping queue `ping_ts_ns` holds monotonic timestamps. -/
structure IvyClientState where
  ip : Str
  port : Nat
  agent_id : Option Str
  agent_name : Option Str
  status : Nat
  sent : List Str
  ping_ts_ns : List Nat
deriving DecidableEq

namespace IvyClient

/-- Translation of `IvyClient.start_init` (ivy.py:482): raises
`IvyIllegalStateError` unless the status is `NOT_INITIALIZED` (the raise
happens before any mutation), otherwise stores the remote agent name and
moves to `INITIALIZATION_IN_PROGRESS`. -/
def start_init (c : IvyClientState) (agent_name : Str) : Except PyError IvyClientState :=
  if c.status ≠ NOT_INITIALIZED then .error .ivyIllegalStateError
  else .ok { c with agent_name := some agent_name, status := INITIALIZATION_IN_PROGRESS }

/-- Translation of `IvyClient.end_init` (ivy.py:501): raises
`IvyIllegalStateError` when the status is already `INITIALIZED` (before any
mutation), otherwise sets the status to `INITIALIZED`. -/
def end_init (c : IvyClientState) : Except PyError IvyClientState :=
  if c.status = INITIALIZED then .error .ivyIllegalStateError
  else .ok { c with status := INITIALIZED }

/-- Translation of `IvyClient._send` (ivy.py:666): returns immediately when
the status is not `INITIALIZED`; otherwise encodes the message and writes
it to the socket (transport errors are swallowed in the source, so a write
is modelled as appending the frame to `sent`). -/
def _send (c : IvyClientState) (msg_type : Nat) (num_id : Nat) (params : EncParams) :
    IvyClientState :=
  if c.status ≠ INITIALIZED then c
  else { c with sent := c.sent ++ [encode_message msg_type num_id params] }

/-- Translation of `IvyClient.send_message` (ivy.py:513): emits a MSG frame
carrying the capture groups. -/
def send_message (c : IvyClientState) (num_id : Nat) (captures : List Str) :
    IvyClientState :=
  _send c MSG num_id (.list captures)

/-- Translation of `IvyClient.send_direct_message` (ivy.py:525): emits a
DIRECT_MSG frame when the status is `INITIALIZED`. -/
def send_direct_message (c : IvyClientState) (num_id : Nat) (msg : Str) :
    IvyClientState :=
  if c.status = INITIALIZED then _send c DIRECT_MSG num_id (.str msg) else c

/-- Translation of `IvyClient.send_die_message` (ivy.py:550): emits a DIE
frame when the status is `INITIALIZED`. -/
def send_die_message (c : IvyClientState) (num_id : Nat) (msg : Str) :
    IvyClientState :=
  if c.status = INITIALIZED then _send c DIE num_id (.str msg) else c

/-- Translation of `IvyClient.send_new_subscription` (ivy.py:563): emits an
ADD_REGEXP frame. -/
def send_new_subscription (c : IvyClientState) (idx : Nat) (regexp : Str) :
    IvyClientState :=
  _send c ADD_REGEXP idx (.str regexp)

/-- Translation of `IvyClient.send_ping` (ivy.py:577): appends the current
monotonic timestamp to the ping queue, then emits `PING 0` through `_send`
(which drops the frame when the status is not `INITIALIZED`). -/
def send_ping (c : IvyClientState) (now_ns : Nat) : IvyClientState :=
  _send { c with ping_ts_ns := c.ping_ts_ns ++ [now_ns] } PING 0 (.str [])

/-- Translation of `IvyClient.send_pong` (ivy.py:587): emits a PONG frame. -/
def send_pong (c : IvyClientState) (num_id : Nat) : IvyClientState :=
  _send c PONG num_id (.str [])

/-- Translation of `IvyClient.get_next_ping_delta_ns` (ivy.py:605): pops
the oldest ping timestamp (`pop(0)`, hence FIFO) and returns the elapsed
time, or `none` when the queue is empty. -/
def get_next_ping_delta_ns (c : IvyClientState) (now_ns : Nat) :
    Option Int × IvyClientState :=
  match c.ping_ts_ns with
  | [] => (none, c)
  | t :: rest => (some ((now_ns : Int) - (t : Int)), { c with ping_ts_ns := rest })

/-- Translation of `IvyClient.remove_subscription` (ivy.py:621): emits a
DEL_REGEXP frame (the `params` argument of `_send` defaults to `''`). -/
def remove_subscription (c : IvyClientState) (idx : Nat) : IvyClientState :=
  _send c DEL_REGEXP idx (.str [])

/-- Translation of `IvyClient.wave_bye` (ivy.py:632): emits a BYE frame. -/
def wave_bye (c : IvyClientState) (num_id : Nat) : IvyClientState :=
  _send c BYE num_id (.str [])

/-- Translation of `IvyClient.send_error` (ivy.py:636): emits an ERROR
frame. -/
def send_error (c : IvyClientState) (num_id : Nat) (msg : Str) : IvyClientState :=
  _send c ERROR num_id (.str msg)

end IvyClient

/-- One entry of `IvyServer._clients_bindings` (ivy.py:707).  The compiled
`re.Pattern` of the source is modelled abstractly by its match function:
`pattern text` is `none` when `regexp.match(text)` returns no match, and
`some groups` otherwise, where each capture group that did not participate
in the match is `none` (Python's `match.group(i) is None`).  Clients are
referenced by their index in the server's client list (Python holds object
references; index equality models the `client is to` identity test). -/
structure ClientsBinding where
  pattern : Str → Option (List (Option Str))
  clients : List (Nat × Nat)

/-- Mutable state of an `IvyServer` (ivy.py:724): the registered clients
(`_clients` tuple), the `(ip, port) → index` directory `_clients_ip_port`
(a Python dict, modelled as an association list in insertion order), the
values of `_clients_bindings`, our own subscriptions `idx → regexp` (the
bound callback is not observable and is omitted), and the monotonically
increasing `_next_subst_idx` counter. -/
structure IvyServerState where
  _clients : List IvyClientState
  _clients_ip_port : List ((Str × Nat) × Nat)
  _clients_bindings : List ClientsBinding
  _subscriptions : List (Nat × Str)
  _next_subst_idx : Nat

/-- Fresh server state as produced by `IvyServer.__init__` (ivy.py:768). -/
def initialServer : IvyServerState :=
  { _clients := [], _clients_ip_port := [], _clients_bindings := [],
    _subscriptions := [], _next_subst_idx := 0 }

/-- Lookup in the `(ip, port) → index` directory. -/
def lookupIpPort (m : List ((Str × Nat) × Nat)) (key : Str × Nat) : Option Nat :=
  (m.find? (fun e => decide (e.1 = key))).map (fun e => e.2)

/-- Translation of `IvyServer.register_client` (ivy.py:1007): raises
`ValueError("Already exists")` when the `(ip, port)` key is already in the
directory (before any mutation, so the directory is unchanged), otherwise
creates the client in state `NOT_INITIALIZED`, maps the key to its index
and appends it to `_clients`. -/
def register_client (st : IvyServerState) (ip : Str) (port : Nat)
    (agent_id : Option Str) (agent_name : Option Str) :
    Except PyError (IvyClientState × IvyServerState) :=
  if (lookupIpPort st._clients_ip_port (ip, port)).isSome then .error .valueError
  else
    let new_client : IvyClientState :=
      { ip := ip, port := port, agent_id := agent_id, agent_name := agent_name,
        status := NOT_INITIALIZED, sent := [], ping_ts_ns := [] }
    .ok (new_client,
      { st with
        _clients_ip_port := st._clients_ip_port ++ [((ip, port), st._clients.length)],
        _clients := st._clients ++ [new_client] })

/-- Translation of `IvyServer._add_subscription` (ivy.py:1267): hands out
the current `_next_subst_idx`, increments the counter and stores the
subscription under the handed-out id. -/
def _add_subscription (st : IvyServerState) (regexp : Str) : Nat × IvyServerState :=
  (st._next_subst_idx,
   { st with
     _next_subst_idx := st._next_subst_idx + 1,
     _subscriptions := st._subscriptions ++ [(st._next_subst_idx, regexp)] })

/-- Translation of `IvyServer._remove_subscription` (ivy.py:1287):
`self._subscriptions.pop(idx)[0]`, raising `KeyError` when the id is
unknown, otherwise removing the entry and returning its regexp. -/
def _remove_subscription (st : IvyServerState) (idx : Nat) :
    Except PyError (Str × IvyServerState) :=
  match st._subscriptions.find? (fun s => decide (s.1 = idx)) with
  | none => .error .keyError
  | some s =>
    .ok (s.2, { st with
      _subscriptions := st._subscriptions.filter (fun t => decide (t.1 ≠ idx)) })

/-- Subscription-registry operation of one agent lifetime: `bind_msg`
(which assigns the id through `_add_subscription`) or `unbind_msg` (which
removes through `_remove_subscription`). -/
inductive SubOp where
  | add : Str → SubOp
  | remove : Nat → SubOp

/-- Runs a sequence of subscription operations, collecting in order the
ids assigned by the `add` operations.  A failing `remove` (unknown id)
raises in the source; the lifetime simply continues with later calls. -/
def runSubOps : IvyServerState → List SubOp → List Nat × IvyServerState
  | st, [] => ([], st)
  | st, .add regexp :: ops =>
    let r := _add_subscription st regexp
    let rest := runSubOps r.2 ops
    (r.1 :: rest.1, rest.2)
  | st, .remove idx :: ops =>
    match _remove_subscription st idx with
    | .error _ => runSubOps st ops
    | .ok r => runSubOps r.2 ops

/-- Replaces the element at an index of the client list, leaving the list
unchanged when the index is out of range. -/
def updateAt : List IvyClientState → Nat → (IvyClientState → IvyClientState) →
    List IvyClientState
  | [], _, _ => []
  | c :: cs, 0, f => f c :: cs
  | c :: cs, i + 1, f => c :: updateAt cs i f

/-- Models `match.groups(default='')` (ivy.py:1223): capture groups that
did not participate in the match default to the empty string. -/
def groupsDefault (gs : List (Option Str)) : List Str :=
  gs.map (fun g => g.getD [])

/-- Inner loop of `IvyServer.send_msg` (ivy.py:1224): for each
`(client, binding_id)` pair of a matching binding, when no target is given
or the pair's client is the target (`to is None or client is to`), send
one MSG frame through `IvyClient.send_message` and increment the counter. -/
def sendMsgPairs (pairs : List (Nat × Nat)) (captures : List Str) (tgt : Option Nat)
    (acc : Nat × List IvyClientState) : Nat × List IvyClientState :=
  match pairs with
  | [] => acc
  | p :: ps =>
    sendMsgPairs ps captures tgt
      (if tgt = none ∨ tgt = some p.1 then
        (acc.1 + 1, updateAt acc.2 p.1 (fun c => IvyClient.send_message c p.2 captures))
      else acc)

/-- Outer loop of `IvyServer.send_msg` (ivy.py:1217): runs every binding's
compiled regex against the message; on a match, computes the captures with
`groups(default='')` and dispatches to the binding's pairs. -/
def send_msg_loop (bindings : List ClientsBinding) (message : Str) (tgt : Option Nat)
    (acc : Nat × List IvyClientState) : Nat × List IvyClientState :=
  match bindings with
  | [] => acc
  | b :: bs =>
    match b.pattern message with
    | none => send_msg_loop bs message tgt acc
    | some gs =>
      send_msg_loop bs message tgt (sendMsgPairs b.clients (groupsDefault gs) tgt acc)

/-- Translation of `IvyServer.send_msg` (ivy.py:1196): dispatches the
message over all bindings starting from count 0 and returns the number of
times a subscription matched together with the updated clients. -/
def send_msg (clients : List IvyClientState) (bindings : List ClientsBinding)
    (message : Str) (tgt : Option Nat) : Nat × List IvyClientState :=
  send_msg_loop bindings message tgt (0, clients)

/-- Specification-side count of the `(peer, subscription)` pairs whose
regex matches the message. -/
def matchingPairCount (bindings : List ClientsBinding) (message : Str) : Nat :=
  (bindings.map (fun b =>
    match b.pattern message with
    | none => 0
    | some _ => b.clients.length)).sum

/-- Specification-side list of the MSG frames that the pairs of one
binding address to the client of index `i`. -/
def framesForPairs (pairs : List (Nat × Nat)) (captures : List Str) (i : Nat) :
    List Str :=
  (pairs.filter (fun p => decide (p.1 = i))).map
    (fun p => encode_message MSG p.2 (.list captures))

/-- Specification-side list of the MSG frames that `send_msg` (with no
target) addresses to the client of index `i`, in dispatch order. -/
def framesFor (bindings : List ClientsBinding) (message : Str) (i : Nat) : List Str :=
  (bindings.map (fun b =>
    match b.pattern message with
    | none => []
    | some gs => framesForPairs b.clients (groupsDefault gs) i)).flatten

/-- Effect of a batch of MSG frames on one client: an `INITIALIZED` client
has them appended to its socket in order, any other client is untouched. -/
def applyFrames (frames : List Str) (c : IvyClientState) : IvyClientState :=
  if c.status = INITIALIZED then { c with sent := c.sent ++ frames } else c

/-- Translation of `is_multicast` (ivy.py:275):
`int(ip.split('.')[0]) in range(224, 239)`; `none` models the `ValueError`
of `int()` on a non-numeric first component. -/
def is_multicast (ip : Str) : Option Bool :=
  (strToNat? ((ip.splitOn '.').headD [])).map (fun n => decide (224 ≤ n ∧ n < 239))

/-- Characters stripped by Python `int()` and `str.strip()` whitespace
handling, as far as the discovery datagrams exercise it. -/
def isSpaceChar (c : Char) : Bool :=
  c = ' ' ∨ c = '\n' ∨ c = '\t' ∨ c = '\r'

/-- Models Python `int()` on arbitrary discovery-datagram fields: leading
and trailing whitespace is tolerated, as is one sign character (the `_`
digit-grouping form never occurs in discovery traffic). -/
def pyInt? (s : Str) : Option Int :=
  let t := ((s.dropWhile isSpaceChar).reverse.dropWhile isSpaceChar).reverse
  match t with
  | '-' :: rest => (strToNat? rest).map (fun n => -(n : Int))
  | '+' :: rest => (strToNat? rest).map (fun n => (n : Int))
  | _ => (strToNat? t).map (fun n => (n : Int))

/-- Python locals of the `UDP_init_and_listen` receive loop (ivy.py:203)
that survive from one iteration to the next: `protocol_version` and
`port_number` are only assigned when a datagram parses, and reading them
before any assignment raises `UnboundLocalError` (modelled by `none`). -/
structure UdpLoopVars where
  protocol_version : Option Int
  port_number : Option Int
deriving DecidableEq

/-- Result of handling one discovery datagram: the loop thread dies on an
uncaught exception (`crash`), drops the datagram and continues (`skip`),
or registers a peer and connects back (`register`). -/
inductive UdpOutcome where
  | crash
  | skip
  | register (port : Int) (appid : Option Str) (appname : Option Str)
deriving DecidableEq

/-- Parsing phase of one iteration of `UDP_init_and_listen` (ivy.py:203).
`none` models an uncaught `IndexError` from `udp_msg_l[1]`; `some none`
models a `ValueError` caught by the `except ValueError` handler;
`some (some (v, p))` is a successful parse of version and port.  The
evaluation order follows the source: `int(udp_msg_l[0])` runs first, so a
non-integer first field raises `ValueError` before `udp_msg_l[1]` can
raise `IndexError`. -/
def udpParseFields (fields : List Str) : Option (Option (Int × Int)) :=
  match pyInt? (fields.headD []) with
  | none => some none
  | some v =>
    match fields[1]? with
    | none => none
    | some f1 =>
      match pyInt? f1 with
      | none => some none
      | some p => some (some (v, p))

/-- Python `' '.join(l)`. -/
def joinSpace (l : List Str) : Str := List.intercalate [' '] l

/-- Python `s.strip('\n')`. -/
def stripNL (s : Str) : Str :=
  ((s.dropWhile (fun c => c = '\n')).reverse.dropWhile (fun c => c = '\n')).reverse

/-- Translation of the body of the `UDP_init_and_listen` receive loop
(ivy.py:203-255) up to the registration decision.  `appid`/`appname` are
reset to `None` at the top of each iteration and only assigned when the
parse succeeded and the datagram has more than two fields; after the
`except ValueError` handler, `protocol_version` and `port_number` keep the
values of the last successfully parsed datagram, and reading them with no
such datagram raises `UnboundLocalError`, which is not caught. -/
def UDP_process_datagram (our_agent_id : Str) (vars : UdpLoopVars) (udp_msg : Str) :
    UdpOutcome × UdpLoopVars :=
  let fields := udp_msg.splitOn ' '
  match udpParseFields fields with
  | none => (.crash, vars)
  | some parsed =>
    let vars' : UdpLoopVars :=
      match parsed with
      | some vp => { protocol_version := some vp.1, port_number := some vp.2 }
      | none => vars
    let appid : Option Str :=
      match parsed with
      | some _ => if 2 < fields.length then fields[2]? else none
      | none => none
    let appname : Option Str :=
      match parsed with
      | some _ =>
        if 2 < fields.length then some (stripNL (joinSpace (fields.drop 3))) else none
      | none => none
    match vars'.protocol_version with
    | none => (.crash, vars')
    | some v =>
      if v ≠ (PROTOCOL_VERSION : Int) then (.skip, vars')
      else if appid = some our_agent_id then (.skip, vars')
      else
        match vars'.port_number with
        | none => (.crash, vars')
        | some p => (.register p appid appname, vars')

/-- Translation of the `IvyTimer.run` loop (ivy.py:1688) under the claim's
assumption that the server stays alive and `abort` is never set, so the
loop condition reduces to `ticks < nbticks` with `ticks` starting at `-1`
and incremented only when `nbticks` is non-zero.  Returns the number of
callback invocations, or `none` when the loop has not terminated within
`fuel` iterations. -/
def IvyTimer_run : Nat → Int → Int → Option Nat
  | 0, _, _ => none
  | fuel + 1, ticks, nbticks =>
    if ticks < nbticks then
      let t := if nbticks ≠ 0 then ticks + 1 else ticks
      (IvyTimer_run fuel t nbticks).map (fun k => k + 1)
    else some 0

/-- Concrete peer in state `NOT_INITIALIZED`, as `register_client` creates
it, with nothing written to its socket yet. -/
def cNotInit : IvyClientState :=
  { ip := [], port := 1, agent_id := none, agent_name := none,
    status := NOT_INITIALIZED, sent := [], ping_ts_ns := [] }

/-- Concrete binding whose regex matches every message with no capture
groups, held by the peer of index 0 under two remote subscription ids. -/
def bTwo : ClientsBinding :=
  { pattern := fun _ => some [], clients := [(0, 5), (0, 9)] }

theorem charToDigit?_digitToChar {d : Nat} (h : d < 10) :
    charToDigit? (digitToChar d) = some d := by
  interval_cases d <;> decide

theorem digitToChar_toNat {d : Nat} (h : d < 10) :
    (digitToChar d).toNat = d + 48 := by
  interval_cases d <;> decide

theorem mem_natChars {fuel n : Nat} {c : Char} (h : c ∈ natChars fuel n) :
    ∃ d, d < 10 ∧ c = digitToChar d := by
  induction fuel generalizing n with
  | zero => simp [natChars] at h
  | succ f ih =>
    by_cases hn : n < 10
    · simp [natChars, hn] at h
      exact ⟨n, hn, h⟩
    · simp only [natChars, if_neg hn, List.mem_append, List.mem_singleton] at h
      rcases h with h | h
      · exact ih h
      · exact ⟨n % 10, Nat.mod_lt _ (by omega), h⟩

theorem mem_natToStr_toNat {n : Nat} {c : Char} (h : c ∈ natToStr n) :
    48 ≤ c.toNat ∧ c.toNat ≤ 57 := by
  obtain ⟨d, hd, he⟩ := mem_natChars h
  subst he
  rw [digitToChar_toNat hd]
  omega

theorem natChars_ne_nil {fuel n : Nat} (h : 0 < fuel) : natChars fuel n ≠ [] := by
  cases fuel with
  | zero => omega
  | succ f => by_cases hn : n < 10 <;> simp [natChars, hn]

theorem readNat_append (xs ys : Str) (a : Nat) :
    readNat (xs ++ ys) a = (readNat xs a).bind (fun v => readNat ys v) := by
  induction xs generalizing a with
  | nil => rfl
  | cons c cs ih =>
    simp only [List.cons_append, readNat]
    cases h : charToDigit? c with
    | none => rfl
    | some d => exact ih (a * 10 + d)

theorem readNat_natChars {fuel n : Nat} (h : n < fuel) (a : Nat) :
    readNat (natChars fuel n) a =
      some (a * 10 ^ (natChars fuel n).length + n) := by
  induction fuel generalizing n a with
  | zero => omega
  | succ f ih =>
    by_cases hn : n < 10
    · simp only [natChars, if_pos hn, readNat, charToDigit?_digitToChar hn,
        List.length_singleton]
      norm_num
    · have hd : n / 10 < n := Nat.div_lt_self (by omega) (by omega)
      have hf : n / 10 < f := by omega
      have hm : n % 10 < 10 := Nat.mod_lt _ (by omega)
      simp only [natChars, if_neg hn]
      rw [readNat_append, ih hf a]
      simp only [Option.some_bind, readNat, charToDigit?_digitToChar hm,
        List.length_append, List.length_singleton]
      congr 1
      have hqr : 10 * (n / 10) + n % 10 = n := Nat.div_add_mod n 10
      generalize (natChars f (n / 10)).length = k
      generalize n / 10 = q at hqr ⊢
      generalize n % 10 = r at hqr ⊢
      rw [pow_succ, ← hqr]
      ring

theorem strToNat?_natToStr (n : Nat) : strToNat? (natToStr n) = some n := by
  have hne : natToStr n ≠ [] := natChars_ne_nil (Nat.succ_pos n)
  have hr : readNat (natToStr n) 0 = some (0 * 10 ^ (natToStr n).length + n) :=
    readNat_natChars (Nat.lt_succ_self n) 0
  rw [Nat.zero_mul, Nat.zero_add] at hr
  cases hh : natToStr n with
  | nil => exact absurd hh hne
  | cons c cs =>
    rw [hh] at hr
    simpa [strToNat?] using hr

theorem splitFirst_append {sep : Char} {xs : Str} (ys : Str) (h : sep ∉ xs) :
    splitFirst sep (xs ++ sep :: ys) = some (xs, ys) := by
  induction xs with
  | nil => simp [splitFirst]
  | cons c cs ih =>
    have hc : ¬ c = sep := fun e => h (e ▸ List.mem_cons_self c cs)
    have hcs : sep ∉ cs := fun m => h (List.mem_cons_of_mem c m)
    simp [splitFirst, hc, ih hcs]

theorem space_not_mem_natToStr (n : Nat) : ' ' ∉ natToStr n := by
  intro h
  have h2 := mem_natToStr_toNat h
  have e : (' ' : Char).toNat = 32 := rfl
  omega

theorem argStart_not_mem_natToStr (n : Nat) : ARG_START ∉ natToStr n := by
  intro h
  have h2 := mem_natToStr_toNat h
  have e : ARG_START.toNat = 2 := rfl
  omega

theorem decode_MSG_params_enc {ps : List Str} (hwf : ∀ p ∈ ps, ARG_END ∉ p)
    (hne : ps ≠ []) :
    decode_MSG_params (List.intercalate [ARG_END] ps ++ [ARG_END]) = ps := by
  have hmem : ARG_END ∈ List.intercalate [ARG_END] ps ++ [ARG_END] :=
    List.mem_append_right _ (List.mem_singleton_self _)
  simp only [decode_MSG_params, if_pos hmem, List.getLast?_concat, if_pos rfl,
    if_true, List.dropLast_concat]
  exact List.splitOn_intercalate ps ARG_END hwf hne

theorem roundtrip_aux (t n : Nat) (ps : List Str)
    (hwf : ∀ p ∈ ps, ARG_END ∉ p) (h : t = MSG ∨ ps ≠ []) :
    decode_msg ((encode_message t n (.list ps)).dropLast) = some (t, n, ps) := by
  have hdrop : (encode_message t n (.list ps)).dropLast =
      natToStr t ++ [' '] ++ natToStr n ++ [ARG_START] ++
        (if ps.length ≠ 0 then List.intercalate [ARG_END] ps ++ [ARG_END] else []) := by
    simp only [encode_message]
    exact List.dropLast_concat
  have hA : natToStr t ++ [' '] ++ natToStr n ++ [ARG_START] ++
      (if ps.length ≠ 0 then List.intercalate [ARG_END] ps ++ [ARG_END] else []) =
      natToStr t ++ (' ' :: (natToStr n ++ (ARG_START ::
        (if ps.length ≠ 0 then List.intercalate [ARG_END] ps ++ [ARG_END] else [])))) := by
    simp [List.append_assoc]
  rw [hdrop, hA]
  simp only [decode_msg, splitFirst_append _ (space_not_mem_natToStr t),
    splitFirst_append _ (argStart_not_mem_natToStr n), strToNat?_natToStr]
  by_cases hne : ps = []
  · rcases h with h | h
    · subst hne h
      simp [decode_MSG_params]
    · exact absurd hne h
  · have hlen : ps.length ≠ 0 := fun e => hne (List.length_eq_zero.mp e)
    rw [if_pos hlen]
    by_cases ht : t = MSG
    · rw [if_pos ht, decode_MSG_params_enc hwf hne]
    · rw [if_neg ht]
      simp only [List.getLast?_concat, if_pos rfl, if_true, List.dropLast_concat]
      rw [List.splitOn_intercalate ps ARG_END hwf hne]

/-- Claim C1 (corrected).  The round trip as stated fails for a non-MSG
message with an empty parameter list: the decoder splits the empty payload
of `encode_message BYE 0 []` into one empty-string parameter, because
Python `''.split(ETX)` is `['']`, so the decoded triple is
`(BYE, 0, [''])`, not `(BYE, 0, [])`.  (`decode_msg` is applied, as the
handler does, to the frame body with its trailing newline stripped.) -/
theorem C1_counterexample :
    decode_msg ((encode_message BYE 0 (.list [])).dropLast) ≠
      some (BYE, 0, ([] : List Str)) ∧
    decode_msg ((encode_message BYE 0 (.list [])).dropLast) =
      some (BYE, 0, [([] : Str)]) := by
  constructor
  · decide
  · decide

/-- Claim C1 (amended).  For every message type, numeric id and
ETX-free parameter list, decoding the newline-stripped encoding returns
the same triple, provided the type is MSG or the parameter list is
non-empty (an empty list for a non-MSG type decodes to one empty-string
parameter instead); and encoding `(MSG, 7, ["a", "b"])` produces exactly
the bytes `"2 7\x02a\x03b\x03\n"`. -/
theorem C1_encode_decode_roundtrip :
    (∀ (t n : Nat) (ps : List Str), (∀ p ∈ ps, ARG_END ∉ p) →
      (t = MSG ∨ ps ≠ []) →
      decode_msg ((encode_message t n (.list ps)).dropLast) = some (t, n, ps)) ∧
    encode_message MSG 7 (.list [['a'], ['b']]) =
      ['2', ' ', '7', '\x02', 'a', '\x03', 'b', '\x03', '\n'] := by
  constructor
  · exact roundtrip_aux
  · decide

/-- Witness for C1: the round trip evaluated at `(MSG, 7, ["a", "b"])`. -/
theorem C1_encode_decode_roundtrip_witness :
    decode_msg ((encode_message MSG 7 (.list [['a'], ['b']])).dropLast) =
      some (MSG, 7, [['a'], ['b']]) :=
  C1_encode_decode_roundtrip.1 MSG 7 [['a'], ['b']] (by decide) (Or.inl rfl)

/-- Claim C3 (confirmed).  `start_init` raises the illegal-state error if
and only if the status is not `NOT_INITIALIZED`, and otherwise moves to
`INITIALIZATION_IN_PROGRESS` storing the remote name; `end_init` raises if
and only if the status is already `INITIALIZED`, and otherwise sets the
status to `INITIALIZED`.  In both error cases nothing else is returned, so
the peer state is unchanged (the source raises before any mutation). -/
theorem C3_init_state_machine (c : IvyClientState) (name : Str) :
    (IvyClient.start_init c name = .error .ivyIllegalStateError ↔
      c.status ≠ NOT_INITIALIZED) ∧
    (IvyClient.start_init c name =
        .ok { c with agent_name := some name, status := INITIALIZATION_IN_PROGRESS } ↔
      c.status = NOT_INITIALIZED) ∧
    (IvyClient.end_init c = .error .ivyIllegalStateError ↔ c.status = INITIALIZED) ∧
    (IvyClient.end_init c = .ok { c with status := INITIALIZED } ↔
      c.status ≠ INITIALIZED) := by
  unfold IvyClient.start_init IvyClient.end_init
  by_cases h1 : c.status = NOT_INITIALIZED <;> by_cases h2 : c.status = INITIALIZED <;>
    simp [h1, h2]

/-- Witness for C3: a fresh peer accepts `start_init`. -/
theorem C3_init_state_machine_witness :
    IvyClient.start_init cNotInit ['n'] =
      .ok { cNotInit with
              agent_name := some ['n'], status := INITIALIZATION_IN_PROGRESS } :=
  (C3_init_state_machine cNotInit ['n']).2.1.mpr (by decide)

/-- Claim C4 (confirmed).  Every send operation of a peer whose status is
not `INITIALIZED` writes nothing to the socket: all of them funnel into
`_send`, which returns before touching the socket. -/
theorem C4_no_send_uninitialized (c : IvyClientState) (h : c.status ≠ INITIALIZED)
    (num_id idx now_ns : Nat) (captures : List Str) (msg regexp : Str) :
    (IvyClient.send_message c num_id captures).sent = c.sent ∧
    (IvyClient.send_direct_message c num_id msg).sent = c.sent ∧
    (IvyClient.send_die_message c num_id msg).sent = c.sent ∧
    (IvyClient.send_new_subscription c idx regexp).sent = c.sent ∧
    (IvyClient.remove_subscription c idx).sent = c.sent ∧
    (IvyClient.send_ping c now_ns).sent = c.sent ∧
    (IvyClient.send_pong c num_id).sent = c.sent ∧
    (IvyClient.send_error c num_id msg).sent = c.sent ∧
    (IvyClient.wave_bye c num_id).sent = c.sent := by
  unfold IvyClient.send_message IvyClient.send_direct_message
    IvyClient.send_die_message IvyClient.send_new_subscription
    IvyClient.remove_subscription IvyClient.send_ping IvyClient.send_pong
    IvyClient.send_error IvyClient.wave_bye IvyClient._send
  simp [h]

/-- Witness for C4: evaluated on a freshly registered peer. -/
theorem C4_no_send_uninitialized_witness :
    (IvyClient.send_message cNotInit 1 []).sent = cNotInit.sent ∧
    (IvyClient.send_direct_message cNotInit 1 ['m']).sent = cNotInit.sent ∧
    (IvyClient.send_die_message cNotInit 1 ['m']).sent = cNotInit.sent ∧
    (IvyClient.send_new_subscription cNotInit 2 ['r']).sent = cNotInit.sent ∧
    (IvyClient.remove_subscription cNotInit 2).sent = cNotInit.sent ∧
    (IvyClient.send_ping cNotInit 3).sent = cNotInit.sent ∧
    (IvyClient.send_pong cNotInit 1).sent = cNotInit.sent ∧
    (IvyClient.send_error cNotInit 1 ['m']).sent = cNotInit.sent ∧
    (IvyClient.wave_bye cNotInit 1).sent = cNotInit.sent :=
  C4_no_send_uninitialized cNotInit (by decide) 1 2 3 [] ['m'] ['r']

/-- Claim C10 (confirmed).  `send_ping` always appends the timestamp to
the ping queue, even when the peer is not `INITIALIZED` and the PING frame
is therefore dropped; `get_next_ping_delta_ns` consumes the queue in FIFO
order (the head is the oldest timestamp) and returns `none` exactly when
the queue is empty, so a delta can be returned for a ping that was never
transmitted. -/
theorem C10_ping_queue (c : IvyClientState) (now_ns now2_ns : Nat) :
    (IvyClient.send_ping c now_ns).ping_ts_ns = c.ping_ts_ns ++ [now_ns] ∧
    (c.status ≠ INITIALIZED → (IvyClient.send_ping c now_ns).sent = c.sent) ∧
    (IvyClient.get_next_ping_delta_ns c now2_ns).1 =
      c.ping_ts_ns.head?.map (fun t => (now2_ns : Int) - (t : Int)) ∧
    (IvyClient.get_next_ping_delta_ns c now2_ns).2.ping_ts_ns = c.ping_ts_ns.tail ∧
    ((IvyClient.get_next_ping_delta_ns c now2_ns).1 = none ↔ c.ping_ts_ns = []) := by
  refine ⟨?_, fun h => ?_, ?_, ?_, ?_⟩
  · unfold IvyClient.send_ping IvyClient._send
    by_cases h : c.status = INITIALIZED <;> simp [h]
  · unfold IvyClient.send_ping IvyClient._send
    simp [h]
  · unfold IvyClient.get_next_ping_delta_ns
    cases hc : c.ping_ts_ns <;> simp [hc]
  · unfold IvyClient.get_next_ping_delta_ns
    cases hc : c.ping_ts_ns <;> simp [hc]
  · unfold IvyClient.get_next_ping_delta_ns
    cases hc : c.ping_ts_ns <;> simp [hc]

/-- Witness for C10: a ping on an uninitialized peer is queued but not
transmitted. -/
theorem C10_ping_queue_witness :
    (IvyClient.send_ping cNotInit 5).sent = cNotInit.sent :=
  (C10_ping_queue cNotInit 5 9).2.1 (by decide)

/-- Lower bound on the ids a lifetime suffix assigns: never below the
current value of the `_next_subst_idx` counter. -/
theorem runSubOps_next_le {ops : List SubOp} {st : IvyServerState} {i : Nat}
    (h : i ∈ (runSubOps st ops).1) : st._next_subst_idx ≤ i := by
  induction ops generalizing st with
  | nil => simp [runSubOps] at h
  | cons op ops ih =>
    cases op with
    | add regexp =>
      simp only [runSubOps, List.mem_cons] at h
      rcases h with rfl | h
      · exact Nat.le_refl _
      · have h2 := ih h
        simp only [_add_subscription] at h2
        omega
    | remove idx =>
      cases hr : _remove_subscription st idx with
      | error e =>
        simp only [runSubOps, hr] at h
        exact ih h
      | ok r =>
        have hnext : r.2._next_subst_idx = st._next_subst_idx := by
          unfold _remove_subscription at hr
          cases hf : st._subscriptions.find? (fun s => decide (s.1 = idx)) with
          | none => rw [hf] at hr; cases hr
          | some s =>
            rw [hf] at hr
            simp only [Except.ok.injEq] at hr
            rw [← hr]
        simp only [runSubOps, hr] at h
        have h2 := ih h
        omega

/-- Claim C5 (confirmed).  Over any lifetime of subscription operations,
the ids handed out by `bind_msg` (through `_add_subscription`) are
strictly increasing in order of assignment, hence no id is ever assigned
twice, even after the subscription with that id has been removed. -/
theorem C5_subscription_ids_monotonic (st : IvyServerState) (ops : List SubOp) :
    ((runSubOps st ops).1).Pairwise (· < ·) ∧ ((runSubOps st ops).1).Nodup := by
  have main : ∀ (ops : List SubOp) (st : IvyServerState),
      ((runSubOps st ops).1).Pairwise (· < ·) := by
    intro ops
    induction ops with
    | nil => intro st; simp [runSubOps]
    | cons op ops ih =>
      intro st
      cases op with
      | add regexp =>
        simp only [runSubOps]
        refine List.Pairwise.cons ?_ (ih _)
        intro b hb
        have h2 := runSubOps_next_le hb
        simp only [_add_subscription] at h2 ⊢
        omega
      | remove idx =>
        cases hr : _remove_subscription st idx with
        | error e => simp only [runSubOps, hr]; exact ih _
        | ok r => simp only [runSubOps, hr]; exact ih _
  exact ⟨main ops st, (main ops st).imp (fun h => Nat.ne_of_lt h)⟩

/-- Claim C6 (code_bug).  The source tests
`int(ip.split('.')[0]) in range(224, 239)`, and Python's `range` excludes
its upper bound, so the first octet 239 — a multicast address, and inside
the 224-239 range the claim (and the function's own docstring) describe —
is reported as not multicast; 224-238 behave as claimed. -/
theorem C6_is_multicast_eval :
    is_multicast ['2','3','9','.','0','.','0','.','1'] = some false ∧
    is_multicast ['2','3','8','.','1','.','2','.','3'] = some true ∧
    is_multicast ['2','2','4','.','0','.','0','.','1'] = some true ∧
    is_multicast ['2','2','3','.','0','.','0','.','1'] = some false := by
  refine ⟨?_, ?_, ?_, ?_⟩ <;> decide

/-- Claim C7 (code_bug).  A discovery datagram that fails the four-field
parse is not safely rejected: when it is the first datagram received, the
`protocol_version` local was never assigned and reading it raises an
uncaught `UnboundLocalError`, killing the receive loop; when a previous
datagram had parsed, the stale `protocol_version` and `port_number` pass
the version check and a peer is registered at the stale port.  A
well-formed datagram registers normally. -/
theorem C7_udp_malformed_eval :
    (UDP_process_datagram ['m','e'] ⟨none, none⟩ ['x', ' ', '1']).1 = .crash ∧
    (UDP_process_datagram ['m','e'] ⟨some 3, some 4567⟩
        ['b','a','d', ' ', 'm','s','g']).1 = .register 4567 none none ∧
    (UDP_process_datagram ['m','e'] ⟨none, none⟩
        ['3', ' ', '8','0', ' ', 'i','d', ' ', 'n','m','\n']).1 =
      .register 80 (some ['i','d']) (some ['n','m']) := by
  refine ⟨?_, ?_, ?_⟩ <;> decide

/-- One unfolding step of the timer loop. -/
theorem IvyTimer_run_succ (fuel : Nat) (t n : Int) :
    IvyTimer_run (fuel + 1) t n =
      if t < n then
        (IvyTimer_run fuel (if n ≠ 0 then t + 1 else t) n).map (fun k => k + 1)
      else some 0 := rfl

/-- Termination count of the timer loop when `nbticks` is positive:
starting from tick counter `t` with `n - t = k`, the callback runs `k`
times. -/
theorem timer_loop_exact {k : Nat} : ∀ (t n : Int), 1 ≤ n → t ≤ n → n - t = k →
    IvyTimer_run (k + 1) t n = some k := by
  induction k with
  | zero =>
    intro t n h1 h2 h3
    have ht : ¬ t < n := by omega
    simp [IvyTimer_run_succ, ht]
  | succ k ih =>
    intro t n h1 h2 h3
    have ht : t < n := by omega
    have hn : n ≠ 0 := by omega
    rw [IvyTimer_run_succ, if_pos ht, if_pos hn, ih (t + 1) n h1 (by omega) (by omega)]
    rfl

/-- Claim C9 (confirmed).  The peers directory holds at most one peer per
`(ip, port)` key: on a key already present, `register_client` raises
`ValueError` — distinguishable from the other modelled failures — before
any mutation, so the directory is unchanged; on a fresh key it returns a
new `NOT_INITIALIZED` peer, appends it to the client list, maps the key to
its index and leaves every other key and every existing client untouched. -/
theorem C9_register_client (st : IvyServerState) (ip : Str) (port : Nat)
    (agent_id agent_name : Option Str) :
    ((lookupIpPort st._clients_ip_port (ip, port)).isSome →
      register_client st ip port agent_id agent_name = .error .valueError) ∧
    (lookupIpPort st._clients_ip_port (ip, port) = none →
      ∃ c st', register_client st ip port agent_id agent_name = .ok (c, st') ∧
        st'._clients.length = st._clients.length + 1 ∧
        st'._clients[st._clients.length]? = some c ∧
        c.ip = ip ∧ c.port = port ∧ c.status = NOT_INITIALIZED ∧
        lookupIpPort st'._clients_ip_port (ip, port) = some st._clients.length ∧
        (∀ key, key ≠ (ip, port) →
          lookupIpPort st'._clients_ip_port key = lookupIpPort st._clients_ip_port key) ∧
        (∀ i, i < st._clients.length → st'._clients[i]? = st._clients[i]?)) := by
  constructor
  · intro h
    unfold register_client
    rw [if_pos h]
  · intro h
    have hns : ¬ (lookupIpPort st._clients_ip_port (ip, port)).isSome := by
      rw [h]; exact Bool.false_ne_true
    have hfind : st._clients_ip_port.find? (fun e => decide (e.1 = (ip, port))) = none := by
      unfold lookupIpPort at h
      cases hf : st._clients_ip_port.find? (fun e => decide (e.1 = (ip, port))) with
      | none => rfl
      | some e => rw [hf] at h; cases h
    unfold register_client
    rw [if_neg hns]
    refine ⟨_, _, rfl, ?_, ?_, rfl, rfl, rfl, ?_, ?_, ?_⟩
    · simp
    · exact List.getElem?_concat_length _ _
    · unfold lookupIpPort
      rw [List.find?_append, hfind]
      simp
    · intro key hk
      unfold lookupIpPort
      rw [List.find?_append]
      have : List.find? (fun e => decide (e.1 = key)) [((ip, port), st._clients.length)] =
          none := by
        simp [List.find?, Ne.symm hk]
      rw [this]
      cases List.find? (fun e => decide (e.1 = key)) st._clients_ip_port <;> rfl
    · intro i hi
      exact List.getElem?_append_left hi

/-- Witness for C9: registering a fresh `(ip, port)` key in the initial
server state succeeds with the stated shape. -/
theorem C9_register_client_witness :
    ∃ c st', register_client initialServer ['a'] 80 none none = .ok (c, st') ∧
      st'._clients.length = initialServer._clients.length + 1 ∧
      st'._clients[initialServer._clients.length]? = some c ∧
      c.ip = ['a'] ∧ c.port = 80 ∧ c.status = NOT_INITIALIZED ∧
      lookupIpPort st'._clients_ip_port (['a'], 80) =
        some initialServer._clients.length ∧
      (∀ key, key ≠ (['a'], 80) →
        lookupIpPort st'._clients_ip_port key =
          lookupIpPort initialServer._clients_ip_port key) ∧
      (∀ i, i < initialServer._clients.length →
        st'._clients[i]? = initialServer._clients[i]?) :=
  (C9_register_client initialServer ['a'] 80 none none).2 (by decide)

theorem updateAt_getElem? (cls : List IvyClientState) (i j : Nat)
    (f : IvyClientState → IvyClientState) :
    (updateAt cls i f)[j]? = if j = i then (cls[j]?).map f else cls[j]? := by
  induction cls generalizing i j with
  | nil => simp [updateAt]
  | cons c cs ih =>
    cases i with
    | zero =>
      cases j with
      | zero => simp [updateAt]
      | succ k => simp [updateAt]
    | succ i =>
      cases j with
      | zero => simp [updateAt]
      | succ k => simpa [updateAt] using ih i k

theorem applyFrames_nil (c : IvyClientState) : applyFrames [] c = c := by
  unfold applyFrames
  split <;> simp

theorem applyFrames_send (c : IvyClientState) (bid : Nat) (captures : List Str)
    (fs : List Str) :
    applyFrames fs (IvyClient.send_message c bid captures) =
      applyFrames (encode_message MSG bid (.list captures) :: fs) c := by
  unfold applyFrames IvyClient.send_message IvyClient._send
  by_cases h : c.status = INITIALIZED <;> simp [h]

theorem applyFrames_append (fs1 fs2 : List Str) (c : IvyClientState) :
    applyFrames fs2 (applyFrames fs1 c) = applyFrames (fs1 ++ fs2) c := by
  unfold applyFrames
  by_cases h : c.status = INITIALIZED <;> simp [h]

/-- Characterization of the inner dispatch loop with no target: every pair
is counted, and each client receives exactly the frames its pairs address
to it (when `INITIALIZED`; otherwise it is untouched). -/
theorem sendMsgPairs_none (pairs : List (Nat × Nat)) (captures : List Str)
    (n : Nat) (cls : List IvyClientState) :
    (sendMsgPairs pairs captures none (n, cls)).1 = n + pairs.length ∧
    ∀ i, (sendMsgPairs pairs captures none (n, cls)).2[i]? =
      (cls[i]?).map (applyFrames (framesForPairs pairs captures i)) := by
  induction pairs generalizing n cls with
  | nil =>
    refine ⟨rfl, fun i => ?_⟩
    have h0 : framesForPairs ([] : List (Nat × Nat)) captures i = [] := rfl
    rw [h0]
    show cls[i]? = cls[i]?.map (applyFrames [])
    cases hcl : cls[i]? with
    | none => rfl
    | some c => simp [applyFrames_nil]
  | cons p ps ih =>
    have hstep : sendMsgPairs (p :: ps) captures none (n, cls) =
        sendMsgPairs ps captures none
          (n + 1, updateAt cls p.1 (fun c => IvyClient.send_message c p.2 captures)) := by
      simp [sendMsgPairs]
    rw [hstep]
    obtain ⟨h1, h2⟩ :=
      ih (n + 1) (updateAt cls p.1 (fun c => IvyClient.send_message c p.2 captures))
    refine ⟨by rw [h1]; simp; omega, fun i => ?_⟩
    rw [h2 i, updateAt_getElem?]
    by_cases hip : i = p.1
    · rw [if_pos hip]
      have hfp : framesForPairs (p :: ps) captures i =
          encode_message MSG p.2 (.list captures) :: framesForPairs ps captures i := by
        simp [framesForPairs, hip.symm]
      rw [hfp]
      cases cls[i]? with
      | none => rfl
      | some c => simp [applyFrames_send]
    · rw [if_neg hip]
      have hfp : framesForPairs (p :: ps) captures i = framesForPairs ps captures i := by
        have : ¬ p.1 = i := fun e => hip e.symm
        simp [framesForPairs, this]
      rw [hfp]

/-- Characterization of the outer dispatch loop with no target. -/
theorem send_msg_loop_none (bindings : List ClientsBinding) (message : Str)
    (n : Nat) (cls : List IvyClientState) :
    (send_msg_loop bindings message none (n, cls)).1 =
      n + matchingPairCount bindings message ∧
    ∀ i, (send_msg_loop bindings message none (n, cls)).2[i]? =
      (cls[i]?).map (applyFrames (framesFor bindings message i)) := by
  induction bindings generalizing n cls with
  | nil =>
    refine ⟨by simp [send_msg_loop, matchingPairCount], fun i => ?_⟩
    have h0 : framesFor ([] : List ClientsBinding) message i = [] := rfl
    rw [h0]
    show cls[i]? = cls[i]?.map (applyFrames [])
    cases hcl : cls[i]? with
    | none => rfl
    | some c => simp [applyFrames_nil]
  | cons b bs ih =>
    cases hb : b.pattern message with
    | none =>
      have hc : matchingPairCount (b :: bs) message =
          matchingPairCount bs message := by
        simp [matchingPairCount, hb]
      have hf : ∀ i, framesFor (b :: bs) message i = framesFor bs message i := by
        intro i; simp [framesFor, hb]
      obtain ⟨h1, h2⟩ := ih n cls
      refine ⟨?_, fun i => ?_⟩
      · rw [show send_msg_loop (b :: bs) message none (n, cls) =
            send_msg_loop bs message none (n, cls) by simp [send_msg_loop, hb], h1, hc]
      · rw [show send_msg_loop (b :: bs) message none (n, cls) =
            send_msg_loop bs message none (n, cls) by simp [send_msg_loop, hb],
          h2 i, hf i]
    | some gs =>
      have hunf : send_msg_loop (b :: bs) message none (n, cls) =
          send_msg_loop bs message none
            (sendMsgPairs b.clients (groupsDefault gs) none (n, cls)) := by
        simp [send_msg_loop, hb]
      obtain ⟨hp1, hp2⟩ := sendMsgPairs_none b.clients (groupsDefault gs) n cls
      obtain ⟨h1, h2⟩ := ih (sendMsgPairs b.clients (groupsDefault gs) none (n, cls)).1
        (sendMsgPairs b.clients (groupsDefault gs) none (n, cls)).2
      refine ⟨?_, fun i => ?_⟩
      · rw [hunf, h1, hp1]
        simp [matchingPairCount, hb]
        omega
      · rw [hunf, h2 i, hp2 i]
        have hf : framesFor (b :: bs) message i =
            framesForPairs b.clients (groupsDefault gs) i ++ framesFor bs message i := by
          simp [framesFor, hb]
        rw [hf]
        cases cls[i]? with
        | none => rfl
        | some c => simp [applyFrames_append]

/-- Claim C2 (corrected).  The counterexample: one peer in state
`NOT_INITIALIZED` holding two remote subscriptions whose regex matches the
text.  `send_msg` returns 2 — both pairs matched and were counted — yet
nothing is written to the peer's socket, because `IvyClient._send` drops
frames to peers that are not `INITIALIZED`; the claim's "a peer with two
matching subscriptions receives two frames" fails for it. -/
theorem C2_counterexample :
    (send_msg [cNotInit] [bTwo] ['x'] none).1 = 2 ∧
    (send_msg [cNotInit] [bTwo] ['x'] none).2.map (fun c => c.sent) = [[]] := by
  constructor
  · decide
  · decide

/-- Claim C2 (amended).  With no target, `send_msg` returns exactly the
number of `(peer, remote-subscription)` pairs whose compiled regex matches
the text, with capture groups that did not participate in the match
defaulting to the empty string; each matching pair is dispatched one MSG
frame, which reaches the peer's socket exactly when the peer's status is
`INITIALIZED` (so an initialized peer with two matching subscriptions
receives two frames), while peers that are not initialized are left
completely untouched. -/
theorem C2_send_msg_dispatch (clients : List IvyClientState)
    (bindings : List ClientsBinding) (message : Str) :
    (send_msg clients bindings message none).1 = matchingPairCount bindings message ∧
    ∀ i, (send_msg clients bindings message none).2[i]? =
      (clients[i]?).map (applyFrames (framesFor bindings message i)) := by
  obtain ⟨h1, h2⟩ := send_msg_loop_none bindings message 0 clients
  exact ⟨by rw [send_msg, h1, Nat.zero_add], h2⟩

/-- Claim C8 (code_bug).  The loop starts with `ticks = -1` and tests
`ticks < nbticks` before incrementing, so a timer with `nbticks = N > 0`
invokes its callback `N + 1` times, not `N` (concretely, `nbticks = 1`
yields two invocations); a timer with `nbticks = 0` never terminates on
its own, as claimed. -/
theorem C8_timer_ticks :
    IvyTimer_run 4 (-1) 1 = some 2 ∧
    (∀ (N : Nat), IvyTimer_run (N + 3) (-1) ((N : Int) + 1) = some (N + 2)) ∧
    (∀ (fuel : Nat), IvyTimer_run fuel (-1) 0 = none) := by
  refine ⟨by decide, fun N => ?_, fun fuel => ?_⟩
  · exact timer_loop_exact (-1) ((N : Int) + 1) (by omega) (by omega) (by push_cast; omega)
  · induction fuel with
    | zero => rfl
    | succ f ih =>
      simp only [IvyTimer_run]
      norm_num [ih]

end Ivy
